import Mathlib

/-!
Verification of the Beyond_Call recording/revision pipeline.

The development shallowly embeds:
* the frontend data model and `latestByType` helper (`src/lib/types.ts`, `App.tsx`);
* the append-only revision store operations (modelled from the spec, the
  Rust backend is not part of the available sources);
* the macOS native system-audio capture adapter
  (`src-tauri/macos/screen_capture_audio.swift`): RMS level computation,
  EMA smoothing, telemetry throttling and latching, deferred writer
  setup, stop handling and graceful shutdown.
-/

namespace BeyondCall

/-- `ArtifactType` from `src/lib/types.ts`. -/
inductive ArtifactType where
  | summary
  | analysis
  | critique_recruitment
  | critique_sales
  | critique_cs
deriving DecidableEq, Repr

/-- `TranscriptRevision` from `src/lib/types.ts`. -/
structure TranscriptRevision where
  id : String
  entry_id : String
  version : Nat
  text : String
  language : String
  is_manual_edit : Bool
  created_at : String
deriving DecidableEq, Repr

/-- `ArtifactRevision` from `src/lib/types.ts`. -/
structure ArtifactRevision where
  id : String
  entry_id : String
  artifact_type : ArtifactType
  version : Nat
  text : String
  source_transcript_version : Nat
  is_stale : Bool
  is_manual_edit : Bool
  created_at : String
deriving DecidableEq, Repr

/-- `latestByType` from `App.tsx`: filter the revisions by artifact type,
sort descending by version (JS comparator `b.version - a.version`), take
the first element. -/
def latestByType (revisions : List ArtifactRevision) (type : ArtifactType) :
    Option ArtifactRevision :=
  ((revisions.filter (fun item => item.artifact_type == type)).mergeSort
    (fun a b => decide (b.version ≤ a.version))).head?

/-- Descending-by-version comparator used by `latestByType`
(the JS comparator `b.version - a.version`). -/
def versionDesc (a b : ArtifactRevision) : Bool :=
  decide (b.version ≤ a.version)

lemma versionDesc_trans (a b c : ArtifactRevision)
    (hab : versionDesc a b) (hbc : versionDesc b c) : versionDesc a c := by
  simp only [versionDesc, decide_eq_true_eq] at *
  exact le_trans hbc hab

lemma versionDesc_total (a b : ArtifactRevision) :
    versionDesc a b || versionDesc b a := by
  simp only [versionDesc, decide_eq_true_eq, Bool.or_eq_true]
  exact (Nat.le_total b.version a.version).imp id id

lemma head_mergeSort_versionDesc (l : List ArtifactRevision) (a : ArtifactRevision)
    (h : (l.mergeSort versionDesc).head? = some a) :
    a ∈ l ∧ ∀ b ∈ l, b.version ≤ a.version := by
  have hperm := List.mergeSort_perm l versionDesc
  have hsorted : (l.mergeSort versionDesc).Pairwise (fun a b => versionDesc a b = true) :=
    List.sorted_mergeSort versionDesc_trans versionDesc_total l
  rcases hs : l.mergeSort versionDesc with _ | ⟨x, tl⟩
  · rw [hs] at h; cases h
  · rw [hs] at h hperm hsorted
    have hax : a = x := by
      have := h
      simp at this
      exact this.symm
    subst hax
    constructor
    · exact hperm.mem_iff.mp (List.mem_cons_self _ _)
    · intro b hb
      have hbmem : b ∈ a :: tl := hperm.mem_iff.mpr hb
      rcases List.mem_cons.mp hbmem with hba | hbtl
      · exact le_of_eq (congrArg ArtifactRevision.version hba)
      · have := (List.pairwise_cons.mp hsorted).1 b hbtl
        simpa [versionDesc] using this

/-- C10: `latestByType` returns `undefined` exactly when no revision of the
requested type exists; otherwise it returns a revision of that type whose
version is maximal among all revisions of that type in the list. -/
theorem latestByType_correct (revisions : List ArtifactRevision) (t : ArtifactType) :
    (latestByType revisions t = none ↔ ∀ r ∈ revisions, r.artifact_type ≠ t) ∧
    ∀ a, latestByType revisions t = some a →
      a ∈ revisions ∧ a.artifact_type = t ∧
      ∀ b ∈ revisions, b.artifact_type = t → b.version ≤ a.version := by
  constructor
  · unfold latestByType
    rw [List.head?_eq_none_iff]
    constructor
    · intro h r hr hrt
      have hmem : r ∈ (revisions.filter fun item => item.artifact_type == t).mergeSort
          (fun a b => decide (b.version ≤ a.version)) := by
        rw [List.mem_mergeSort, List.mem_filter]
        exact ⟨hr, by simp [hrt]⟩
      rw [h] at hmem
      exact absurd hmem (List.not_mem_nil r)
    · intro h
      have hf : revisions.filter (fun item => item.artifact_type == t) = [] := by
        rw [List.filter_eq_nil_iff]
        intro r hr
        simp [h r hr]
      rw [hf]
      simp
  · intro a ha
    have ha' : ((revisions.filter fun item => item.artifact_type == t).mergeSort
        versionDesc).head? = some a := ha
    have hmax := head_mergeSort_versionDesc _ a ha'
    have hafilter := hmax.1
    have hmem := (List.mem_filter.mp hafilter).1
    have htype : a.artifact_type = t := by
      have := (List.mem_filter.mp hafilter).2
      simpa using this
    refine ⟨hmem, htype, ?_⟩
    intro b hb hbt
    exact hmax.2 b (List.mem_filter.mpr ⟨hb, by simp [hbt]⟩)

/-- A concrete artifact revision used to instantiate theorems. -/
def arA : ArtifactRevision :=
  { id := "a1", entry_id := "e1", artifact_type := ArtifactType.summary,
    version := 1, text := "hello", source_transcript_version := 1,
    is_stale := false, is_manual_edit := false, created_at := "t1" }

/-- Witness for C10 at a concrete revision list. -/
theorem latestByType_correct_witness :
    (latestByType [arA] ArtifactType.summary = none ↔
      ∀ r ∈ [arA], r.artifact_type ≠ ArtifactType.summary) ∧
    ∀ a, latestByType [arA] ArtifactType.summary = some a →
      a ∈ [arA] ∧ a.artifact_type = ArtifactType.summary ∧
      ∀ b ∈ [arA], b.artifact_type = ArtifactType.summary → b.version ≤ a.version :=
  latestByType_correct [arA] ArtifactType.summary

/-! ## Revision store

The revision store lives in the Rust Tauri backend, which is not among the
available sources (only its TypeScript types and callers are). The
operations below are modelled from the spec. -/

/-- Modelled from the spec: the Revision Store state — append-only per-entry
lists of transcript revisions and artifact revisions (the Rust backend
holding them in SQLite is missing from the sources). -/
structure RevisionStore where
  transcripts : List TranscriptRevision
  artifacts : List ArtifactRevision

/-- The empty store. -/
def emptyStore : RevisionStore := { transcripts := [], artifacts := [] }

/-- Current (maximum) transcript version for an entry; 0 when none exists. -/
def maxTranscriptVersion (st : RevisionStore) (entryId : String) : Nat :=
  ((st.transcripts.filter (fun r => r.entry_id == entryId)).map
    (fun r => r.version)).foldl max 0

/-- Current (maximum) artifact version for an `(entryId, artifactType)` pair;
0 when none exists. -/
def maxArtifactVersion (st : RevisionStore) (entryId : String) (t : ArtifactType) : Nat :=
  ((st.artifacts.filter (fun r => r.entry_id == entryId && r.artifact_type == t)).map
    (fun r => r.version)).foldl max 0

/-- Modelled from the spec: the staleness refresh applied to one artifact
revision when the entry's current transcript version becomes `v`. -/
def refreshStale (entryId : String) (v : Nat) (a : ArtifactRevision) : ArtifactRevision :=
  if a.entry_id == entryId then
    { a with is_stale := decide (a.source_transcript_version < v) }
  else a

/-- Modelled from the spec: creating a TranscriptRevision (by the
Transcription Orchestrator or a manual edit, both missing from the sources)
assigns `version = priorMax + 1` and immediately recomputes and persists
`is_stale` on every existing ArtifactRevision of that entry against the new
current transcript version. -/
def createTranscriptRevision (st : RevisionStore) (entryId text language : String)
    (isManual : Bool) : RevisionStore :=
  let v := maxTranscriptVersion st entryId + 1
  { transcripts := st.transcripts ++
      [{ id := "", entry_id := entryId, version := v, text := text,
         language := language, is_manual_edit := isManual, created_at := "" }],
    artifacts := st.artifacts.map (refreshStale entryId v) }

/-- Modelled from the spec: creating an ArtifactRevision (by the Artifact
Generation Orchestrator or a manual edit, both missing from the sources)
assigns `version = priorMax + 1` for the `(entryId, artifactType)` pair,
snapshots `source_transcript_version` as the current maximum transcript
version, and sets `is_stale = false`. -/
def createArtifactRevision (st : RevisionStore) (entryId : String) (t : ArtifactType)
    (text : String) (isManual : Bool) : RevisionStore :=
  let sv := maxTranscriptVersion st entryId
  let v := maxArtifactVersion st entryId t + 1
  { st with artifacts := st.artifacts ++
      [{ id := "", entry_id := entryId, artifact_type := t, version := v,
         text := text, source_transcript_version := sv, is_stale := false,
         is_manual_edit := isManual, created_at := "" }] }

/-- A revision-store operation: transcript creation (orchestrator output or
manual edit) or artifact creation (generation or manual edit). -/
inductive StoreOp where
  | createTranscript (entryId text language : String) (isManual : Bool)
  | createArtifact (entryId : String) (t : ArtifactType) (text : String) (isManual : Bool)

/-- Apply one operation to the store. -/
def applyOp (st : RevisionStore) : StoreOp → RevisionStore
  | StoreOp.createTranscript e txt lang m => createTranscriptRevision st e txt lang m
  | StoreOp.createArtifact e t txt m => createArtifactRevision st e t txt m

/-- Run a sequence of operations from the empty store. -/
def runOps (ops : List StoreOp) : RevisionStore :=
  ops.foldl applyOp emptyStore

/-- The versions of the transcript revisions of an entry, in creation order. -/
def transcriptVersions (st : RevisionStore) (e : String) : List Nat :=
  (st.transcripts.filter (fun r => r.entry_id == e)).map (fun r => r.version)

/-- The versions of the artifact revisions of an `(entry, artifactType)` pair,
in creation order. -/
def artifactVersions (st : RevisionStore) (e : String) (t : ArtifactType) : List Nat :=
  (st.artifacts.filter (fun r => r.entry_id == e && r.artifact_type == t)).map
    (fun r => r.version)

lemma foldl_max_range (n : Nat) : (List.range' 1 n).foldl max 0 = n := by
  induction n with
  | zero => rfl
  | succ k ih =>
    rw [List.range'_concat, List.foldl_append, ih]
    simp [Nat.max_def]
    omega

lemma maxTranscriptVersion_eq_foldl (st : RevisionStore) (e : String) :
    maxTranscriptVersion st e = (transcriptVersions st e).foldl max 0 := rfl

lemma maxArtifactVersion_eq_foldl (st : RevisionStore) (e : String) (t : ArtifactType) :
    maxArtifactVersion st e t = (artifactVersions st e t).foldl max 0 := rfl

lemma transcriptVersions_createT_self (st : RevisionStore) (e txt lang : String)
    (m : Bool) :
    transcriptVersions (createTranscriptRevision st e txt lang m) e =
      transcriptVersions st e ++ [maxTranscriptVersion st e + 1] := by
  simp [transcriptVersions, createTranscriptRevision, List.filter_append]

lemma transcriptVersions_createT_other (st : RevisionStore) (e txt lang : String)
    (m : Bool) (e' : String) (h : e' ≠ e) :
    transcriptVersions (createTranscriptRevision st e txt lang m) e' =
      transcriptVersions st e' := by
  simp [transcriptVersions, createTranscriptRevision, List.filter_append, h,
    Ne.symm h]

lemma maxT_createT_self (st : RevisionStore) (e txt lang : String) (m : Bool) :
    maxTranscriptVersion (createTranscriptRevision st e txt lang m) e =
      maxTranscriptVersion st e + 1 := by
  rw [maxTranscriptVersion_eq_foldl, transcriptVersions_createT_self,
    List.foldl_append]
  simp [maxTranscriptVersion_eq_foldl, Nat.max_def]

lemma maxT_createT_other (st : RevisionStore) (e txt lang : String) (m : Bool)
    (e' : String) (h : e' ≠ e) :
    maxTranscriptVersion (createTranscriptRevision st e txt lang m) e' =
      maxTranscriptVersion st e' := by
  rw [maxTranscriptVersion_eq_foldl, transcriptVersions_createT_other st e txt lang m e' h,
    maxTranscriptVersion_eq_foldl]

lemma refreshStale_entry (e : String) (v : Nat) (a : ArtifactRevision) :
    (refreshStale e v a).entry_id = a.entry_id := by
  unfold refreshStale; split <;> rfl

lemma refreshStale_type (e : String) (v : Nat) (a : ArtifactRevision) :
    (refreshStale e v a).artifact_type = a.artifact_type := by
  unfold refreshStale; split <;> rfl

lemma refreshStale_version (e : String) (v : Nat) (a : ArtifactRevision) :
    (refreshStale e v a).version = a.version := by
  unfold refreshStale; split <;> rfl

lemma refreshStale_src (e : String) (v : Nat) (a : ArtifactRevision) :
    (refreshStale e v a).source_transcript_version = a.source_transcript_version := by
  unfold refreshStale; split <;> rfl

lemma artifactVersions_createT (st : RevisionStore) (e txt lang : String) (m : Bool)
    (e' : String) (t : ArtifactType) :
    artifactVersions (createTranscriptRevision st e txt lang m) e' t =
      artifactVersions st e' t := by
  unfold artifactVersions createTranscriptRevision
  rw [List.filter_map, List.map_map]
  have hp : ((fun r => r.entry_id == e' && r.artifact_type == t) ∘
      refreshStale e (maxTranscriptVersion st e + 1)) =
      (fun r => r.entry_id == e' && r.artifact_type == t) := by
    funext a
    simp [Function.comp, refreshStale_entry, refreshStale_type]
  have hv : ((fun r => r.version) ∘ refreshStale e (maxTranscriptVersion st e + 1)) =
      (fun r : ArtifactRevision => r.version) := by
    funext a
    simp [Function.comp, refreshStale_version]
  rw [hp, hv]

lemma transcriptVersions_createA (st : RevisionStore) (e : String) (t : ArtifactType)
    (txt : String) (m : Bool) (e' : String) :
    transcriptVersions (createArtifactRevision st e t txt m) e' =
      transcriptVersions st e' := rfl

lemma maxT_createA (st : RevisionStore) (e : String) (t : ArtifactType)
    (txt : String) (m : Bool) (e' : String) :
    maxTranscriptVersion (createArtifactRevision st e t txt m) e' =
      maxTranscriptVersion st e' := rfl

lemma artifactVersions_createA_self (st : RevisionStore) (e : String)
    (t : ArtifactType) (txt : String) (m : Bool) :
    artifactVersions (createArtifactRevision st e t txt m) e t =
      artifactVersions st e t ++ [maxArtifactVersion st e t + 1] := by
  simp [artifactVersions, createArtifactRevision, List.filter_append]

lemma artifactVersions_createA_other (st : RevisionStore) (e : String)
    (t : ArtifactType) (txt : String) (m : Bool) (e' : String) (t' : ArtifactType)
    (h : e' ≠ e ∨ t' ≠ t) :
    artifactVersions (createArtifactRevision st e t txt m) e' t' =
      artifactVersions st e' t' := by
  have hfalse : ((e == e') && (t == t')) = false := by
    apply Bool.and_eq_false_iff.mpr
    rcases h with h | h
    · exact Or.inl (beq_eq_false_iff_ne.mpr (Ne.symm h))
    · exact Or.inr (beq_eq_false_iff_ne.mpr (Ne.symm h))
  simp [artifactVersions, createArtifactRevision, List.filter_append, hfalse]

/-- The joint store invariant: persisted staleness flags agree with version
comparison, and per-entry version lists are exactly `[1, …, n]`. -/
def storeInv (st : RevisionStore) : Prop :=
  (∀ a ∈ st.artifacts,
    a.is_stale = decide (a.source_transcript_version < maxTranscriptVersion st a.entry_id)) ∧
  (∀ e, transcriptVersions st e = List.range' 1 (transcriptVersions st e).length) ∧
  (∀ e t, artifactVersions st e t = List.range' 1 (artifactVersions st e t).length)

lemma snoc_range (l : List Nat) (h : l = List.range' 1 l.length) :
    l ++ [l.length + 1] = List.range' 1 (l ++ [l.length + 1]).length := by
  have hlen : (l ++ [l.length + 1]).length = l.length + 1 := by simp
  rw [hlen, List.range'_concat]
  conv_lhs => rw [h]
  simp [Nat.add_comm]

lemma storeInv_empty : storeInv emptyStore := by
  refine ⟨?_, ?_, ?_⟩ <;>
    simp [emptyStore, transcriptVersions, artifactVersions]

lemma storeInv_createT (st : RevisionStore) (e txt lang : String) (m : Bool)
    (h : storeInv st) : storeInv (createTranscriptRevision st e txt lang m) := by
  obtain ⟨hstale, htv, hav⟩ := h
  refine ⟨?_, ?_, ?_⟩
  · intro a' ha'
    have hmem : a' ∈ (st.artifacts.map (refreshStale e (maxTranscriptVersion st e + 1))) := ha'
    obtain ⟨a, ha, rfl⟩ := List.mem_map.mp hmem
    by_cases he : a.entry_id = e
    · have h1 : refreshStale e (maxTranscriptVersion st e + 1) a =
          { a with is_stale := decide (a.source_transcript_version <
              maxTranscriptVersion st e + 1) } := by
        simp [refreshStale, he]
      rw [h1]
      simp only [refreshStale_entry]
      rw [he, maxT_createT_self]
    · have h1 : refreshStale e (maxTranscriptVersion st e + 1) a = a := by
        simp [refreshStale, he]
      rw [h1, maxT_createT_other st e txt lang m a.entry_id he]
      exact hstale a ha
  · intro e'
    by_cases he : e' = e
    · subst he
      rw [transcriptVersions_createT_self]
      have hk := htv e'
      have hmax : maxTranscriptVersion st e' = (transcriptVersions st e').length := by
        rw [maxTranscriptVersion_eq_foldl]
        conv_lhs => rw [hk]
        exact foldl_max_range _
      rw [hmax]
      exact snoc_range _ hk
    · rw [transcriptVersions_createT_other st e txt lang m e' he]
      exact htv e'
  · intro e' t
    rw [artifactVersions_createT]
    exact hav e' t

lemma storeInv_createA (st : RevisionStore) (e : String) (t : ArtifactType)
    (txt : String) (m : Bool) (h : storeInv st) :
    storeInv (createArtifactRevision st e t txt m) := by
  obtain ⟨hstale, htv, hav⟩ := h
  refine ⟨?_, ?_, ?_⟩
  · intro a' ha'
    have hmem : a' ∈ st.artifacts ++ [_] := ha'
    rcases List.mem_append.mp hmem with hold | hnew
    · rw [maxT_createA]
      exact hstale a' hold
    · have heq := List.mem_singleton.mp hnew
      subst heq
      rw [maxT_createA]
      simp
  · intro e'
    rw [transcriptVersions_createA]
    exact htv e'
  · intro e' t'
    by_cases he : e' = e ∧ t' = t
    · obtain ⟨rfl, rfl⟩ := he
      rw [artifactVersions_createA_self]
      have hk := hav e' t'
      have hmax : maxArtifactVersion st e' t' = (artifactVersions st e' t').length := by
        rw [maxArtifactVersion_eq_foldl]
        conv_lhs => rw [hk]
        exact foldl_max_range _
      rw [hmax]
      exact snoc_range _ hk
    · rw [artifactVersions_createA_other st e t txt m e' t' (by tauto)]
      exact hav e' t'

lemma storeInv_applyOp (st : RevisionStore) (op : StoreOp) (h : storeInv st) :
    storeInv (applyOp st op) := by
  cases op with
  | createTranscript e txt lang m => exact storeInv_createT st e txt lang m h
  | createArtifact e t txt m => exact storeInv_createA st e t txt m h

lemma storeInv_foldl (ops : List StoreOp) :
    ∀ st, storeInv st → storeInv (ops.foldl applyOp st) := by
  induction ops with
  | nil => intro st h; exact h
  | cons op rest ih =>
    intro st h
    exact ih (applyOp st op) (storeInv_applyOp st op h)

lemma storeInv_runOps (ops : List StoreOp) : storeInv (runOps ops) :=
  storeInv_foldl ops emptyStore storeInv_empty

/-- C1: after any sequence of revision-store operations, every persisted
artifact revision's `is_stale` flag equals the comparison of the entry's
current maximum transcript version against the artifact's
`source_transcript_version`; in particular any artifact whose source version
is below the current transcript version is marked stale and any artifact
whose source version equals it is marked fresh. -/
theorem artifact_staleness_invariant (ops : List StoreOp) :
    ∀ a ∈ (runOps ops).artifacts,
      a.is_stale = decide (maxTranscriptVersion (runOps ops) a.entry_id >
          a.source_transcript_version) ∧
      (a.source_transcript_version < maxTranscriptVersion (runOps ops) a.entry_id →
        a.is_stale = true) ∧
      (a.source_transcript_version = maxTranscriptVersion (runOps ops) a.entry_id →
        a.is_stale = false) := by
  intro a ha
  have h1 := (storeInv_runOps ops).1 a ha
  refine ⟨h1, ?_, ?_⟩
  · intro hlt
    rw [h1]
    simpa using hlt
  · intro heq
    rw [h1]
    simp [heq]

/-- A concrete operation sequence: transcript v1, summary artifact from it,
then transcript v2 (which must mark the artifact stale). -/
def opsEx : List StoreOp :=
  [StoreOp.createTranscript "e1" "first text" "auto" false,
   StoreOp.createArtifact "e1" ArtifactType.summary "sum" false,
   StoreOp.createTranscript "e1" "second text" "auto" true]

/-- The summary artifact revision as it stands after `opsEx`. -/
def arB : ArtifactRevision :=
  { id := "", entry_id := "e1", artifact_type := ArtifactType.summary,
    version := 1, text := "sum", source_transcript_version := 1,
    is_stale := true, is_manual_edit := false, created_at := "" }

/-- Witness for C1 at a concrete operation sequence. -/
theorem artifact_staleness_invariant_witness :
    arB.is_stale = decide (maxTranscriptVersion (runOps opsEx) arB.entry_id >
        arB.source_transcript_version) ∧
    (arB.source_transcript_version < maxTranscriptVersion (runOps opsEx) arB.entry_id →
      arB.is_stale = true) ∧
    (arB.source_transcript_version = maxTranscriptVersion (runOps opsEx) arB.entry_id →
      arB.is_stale = false) :=
  artifact_staleness_invariant opsEx arB (by decide)

/-- C2: after any sequence of revision-store operations, the transcript
versions of every entry and the artifact versions of every
`(entry, artifactType)` pair form, in creation order, exactly the gap-free
strictly increasing sequence `[1, 2, …, n]`. -/
theorem version_sequences (ops : List StoreOp) (e : String) (t : ArtifactType) :
    transcriptVersions (runOps ops) e =
      List.range' 1 (transcriptVersions (runOps ops) e).length ∧
    artifactVersions (runOps ops) e t =
      List.range' 1 (artifactVersions (runOps ops) e t).length :=
  ⟨(storeInv_runOps ops).2.1 e, (storeInv_runOps ops).2.2 e t⟩

/-! ## Native capture adapter: RMS level computation

Shallow embedding of `computeRmsLevel` and the EMA smoothing from
`screen_capture_audio.swift`. Sample values and byte counts are idealized
over `ℚ` (the Swift code uses `Float`); the final level lives in `ℝ`
because of the square root. -/

/-- The fields of the `AudioStreamBasicDescription` read by
`computeRmsLevel`: the float and signed-integer format flags and the bit
depth. -/
structure ASBD where
  isFloat : Bool
  isSignedInt : Bool
  bitsPerChannel : Nat
deriving DecidableEq, Repr

/-- The raw payload of one `AudioBuffer`, exposed under both interpretations
the Swift code may bind it to (32-bit float samples or 16-bit signed-integer
samples). -/
structure RawBytes where
  asFloat32 : List ℚ
  asInt16 : List ℤ
deriving DecidableEq, Repr

/-- One `AudioBuffer` of the audio buffer list (`mData` may be null). -/
structure AudioBuffer where
  mData : Option RawBytes
deriving DecidableEq, Repr

/-- The part of a `CMSampleBuffer` that `computeRmsLevel` consumes: the
optional stream format description, whether extracting the audio buffer
list succeeded (`status == noErr`), and the buffers themselves. -/
structure SampleBuffer where
  formatDesc : Option ASBD
  ablOk : Bool
  buffers : List AudioBuffer
deriving DecidableEq, Repr

/-- One iteration of the accumulation loop of `computeRmsLevel`: add the
squared interpreted samples of one buffer to `accum` and their count to
`sampleCount`, with the branch structure of the source (float-32 checked
first, then signed-int-16, null data and other layouts skipped). -/
def rmsStep (asbd : ASBD) (acc : ℚ × Nat) (buffer : AudioBuffer) : ℚ × Nat :=
  match buffer.mData with
  | none => acc
  | some raw =>
    if asbd.isFloat = true ∧ asbd.bitsPerChannel = 32 then
      (acc.1 + (raw.asFloat32.map (fun s => s * s)).sum, acc.2 + raw.asFloat32.length)
    else if asbd.isSignedInt = true ∧ asbd.bitsPerChannel = 16 then
      (acc.1 + (raw.asInt16.map (fun s : ℤ => ((s : ℚ) / 32768) * ((s : ℚ) / 32768))).sum,
        acc.2 + raw.asInt16.length)
    else acc

/-- The accumulation loop of `computeRmsLevel` over all buffers. -/
def rmsScan (asbd : ASBD) (buffers : List AudioBuffer) : ℚ × Nat :=
  buffers.foldl (rmsStep asbd) (0, 0)

/-- `computeRmsLevel` from `screen_capture_audio.swift`: 0 when the format
description is missing, the buffer-list extraction failed, or no samples
were interpreted; otherwise `min(1, sqrt(accum / sampleCount) * 2.8)`. -/
noncomputable def computeRmsLevel (sb : SampleBuffer) : ℝ :=
  match sb.formatDesc with
  | none => 0
  | some asbd =>
    if sb.ablOk = false then 0
    else
      let scan := rmsScan asbd sb.buffers
      if scan.2 = 0 then 0
      else min 1 (Real.sqrt ((scan.1 : ℝ) / (scan.2 : ℝ)) * 2.8)

/-- The Swift `clamped(to: 0...1)` helper: `min (max x lo) hi`. -/
noncomputable def clamped (x lo hi : ℝ) : ℝ := min (max x lo) hi

/-- The smoothing step of the sample handler:
`smoothedLevel = (smoothedLevel * 0.75 + level * 0.25).clamped(to: 0...1)`. -/
noncomputable def smoothUpdate (prev level : ℝ) : ℝ :=
  clamped (prev * 0.75 + level * 0.25) 0 1

/-- The interpreted samples of one buffer, as the spec describes them:
32-bit float samples taken as-is, 16-bit signed integers scaled by
`1/32768`, anything else contributing nothing. -/
def interpretBuffer (asbd : ASBD) (buffer : AudioBuffer) : List ℚ :=
  match buffer.mData with
  | none => []
  | some raw =>
    if asbd.isFloat = true ∧ asbd.bitsPerChannel = 32 then raw.asFloat32
    else if asbd.isSignedInt = true ∧ asbd.bitsPerChannel = 16 then
      raw.asInt16.map (fun s : ℤ => (s : ℚ) / 32768)
    else []

/-- All interpreted samples of a sample buffer, in order. -/
def interpretedSamples (asbd : ASBD) (buffers : List AudioBuffer) : List ℚ :=
  (buffers.map (interpretBuffer asbd)).flatten

/-- The level computation in the spec's phrasing: RMS over the interpreted
samples, normalized by `min(1, rms * 2.8)`. -/
noncomputable def specRmsLevel (samples : List ℚ) : ℝ :=
  if samples.length = 0 then 0
  else min 1 (Real.sqrt ((((samples.map (fun s => s * s)).sum : ℚ) : ℝ) /
    ((samples.length : ℕ) : ℝ)) * 2.8)

lemma rmsStep_eq (asbd : ASBD) (a : ℚ) (n : Nat) (b : AudioBuffer) :
    rmsStep asbd (a, n) b =
      (a + ((interpretBuffer asbd b).map (fun s => s * s)).sum,
        n + (interpretBuffer asbd b).length) := by
  match hb : b.mData with
  | none => simp [rmsStep, interpretBuffer, hb]
  | some raw =>
    by_cases hf : asbd.isFloat = true ∧ asbd.bitsPerChannel = 32
    · simp [rmsStep, interpretBuffer, hb, hf]
    · by_cases hi : asbd.isSignedInt = true ∧ asbd.bitsPerChannel = 16
      · simp [rmsStep, interpretBuffer, hb, hf, hi, List.map_map, Function.comp]
        congr 1
      · simp [rmsStep, interpretBuffer, hb, hf, hi]

lemma rmsScan_go (asbd : ASBD) (buffers : List AudioBuffer) :
    ∀ (a : ℚ) (n : Nat),
      buffers.foldl (rmsStep asbd) (a, n) =
        (a + ((interpretedSamples asbd buffers).map (fun s => s * s)).sum,
          n + (interpretedSamples asbd buffers).length) := by
  induction buffers with
  | nil => intro a n; simp [interpretedSamples]
  | cons b rest ih =>
    intro a n
    rw [List.foldl_cons, rmsStep_eq, ih]
    simp only [interpretedSamples, List.map_cons, List.flatten_cons,
      List.map_append, List.sum_append, List.length_append]
    rw [Prod.mk.injEq]
    constructor
    · ring
    · omega

/-- The accumulation loop computes the sum of squares and the count of the
flattened interpreted sample list. -/
lemma rmsScan_eq (asbd : ASBD) (buffers : List AudioBuffer) :
    rmsScan asbd buffers =
      (((interpretedSamples asbd buffers).map (fun s => s * s)).sum,
        (interpretedSamples asbd buffers).length) := by
  unfold rmsScan
  rw [rmsScan_go]
  simp

lemma interpretBuffer_unsupported (asbd : ASBD) (b : AudioBuffer)
    (hf : ¬(asbd.isFloat = true ∧ asbd.bitsPerChannel = 32))
    (hi : ¬(asbd.isSignedInt = true ∧ asbd.bitsPerChannel = 16)) :
    interpretBuffer asbd b = [] := by
  match hb : b.mData with
  | none => simp [interpretBuffer, hb]
  | some raw => simp [interpretBuffer, hb, hf, hi]

lemma interpretedSamples_unsupported (asbd : ASBD) (buffers : List AudioBuffer)
    (hf : ¬(asbd.isFloat = true ∧ asbd.bitsPerChannel = 32))
    (hi : ¬(asbd.isSignedInt = true ∧ asbd.bitsPerChannel = 16)) :
    interpretedSamples asbd buffers = [] := by
  unfold interpretedSamples
  rw [List.flatten_eq_nil_iff]
  intro x hx
  obtain ⟨b, _, rfl⟩ := List.mem_map.mp hx
  exact interpretBuffer_unsupported asbd b hf hi

/-- C3: on any sample buffer with a format description and a successfully
extracted buffer list, the adapter's level equals the spec's formula — RMS
over the interpreted samples (float-32 and signed-int-16 layouts),
normalized by `min(1, rms * 2.8)` — and the smoothing step is the EMA with
weight 0.75 on history and 0.25 on the new sample, clamped to `[0, 1]`. -/
theorem level_pipeline_spec (sb : SampleBuffer) (asbd : ASBD) (prev : ℝ)
    (hfmt : sb.formatDesc = some asbd) (habl : sb.ablOk = true) :
    computeRmsLevel sb = specRmsLevel (interpretedSamples asbd sb.buffers) ∧
    smoothUpdate prev (computeRmsLevel sb) =
      min 1 (max (0.75 * prev + 0.25 * computeRmsLevel sb) 0) ∧
    0 ≤ smoothUpdate prev (computeRmsLevel sb) ∧
    smoothUpdate prev (computeRmsLevel sb) ≤ 1 := by
  refine ⟨?_, ?_, ?_, ?_⟩
  · simp only [computeRmsLevel, hfmt, habl, rmsScan_eq, specRmsLevel]
    simp
  · have harg : prev * 0.75 + computeRmsLevel sb * 0.25 =
        0.75 * prev + 0.25 * computeRmsLevel sb := by ring
    rw [smoothUpdate, clamped, harg, min_comm]
  · rw [smoothUpdate, clamped]
    exact le_min (le_max_right _ _) zero_le_one
  · rw [smoothUpdate, clamped]
    exact min_le_right _ _

/-- A concrete sample buffer (16-bit signed-int layout, two samples at half
full scale) used to instantiate theorems. -/
def sbInt16 : SampleBuffer :=
  { formatDesc := some { isFloat := false, isSignedInt := true, bitsPerChannel := 16 },
    ablOk := true,
    buffers := [{ mData := some { asFloat32 := [], asInt16 := [16384, -16384] } }] }

/-- Witness for C3 at a concrete sample buffer and prior level 0. -/
theorem level_pipeline_spec_witness :
    computeRmsLevel sbInt16 = specRmsLevel (interpretedSamples
      { isFloat := false, isSignedInt := true, bitsPerChannel := 16 } sbInt16.buffers) ∧
    smoothUpdate 0 (computeRmsLevel sbInt16) =
      min 1 (max (0.75 * 0 + 0.25 * computeRmsLevel sbInt16) 0) ∧
    0 ≤ smoothUpdate 0 (computeRmsLevel sbInt16) ∧
    smoothUpdate 0 (computeRmsLevel sbInt16) ≤ 1 :=
  level_pipeline_spec sbInt16
    { isFloat := false, isSignedInt := true, bitsPerChannel := 16 } 0 rfl rfl

/-- C9: `computeRmsLevel` is total and always lands in `[0, 1]`; it returns 0
when the format description is missing, when the audio buffer list cannot be
extracted, when the sample layout is neither float-32 nor signed-int-16, and
when zero samples were interpreted. -/
theorem computeRmsLevel_total (sb : SampleBuffer) :
    0 ≤ computeRmsLevel sb ∧ computeRmsLevel sb ≤ 1 ∧
    (sb.formatDesc = none → computeRmsLevel sb = 0) ∧
    (sb.ablOk = false → computeRmsLevel sb = 0) ∧
    (∀ asbd, sb.formatDesc = some asbd →
      ¬(asbd.isFloat = true ∧ asbd.bitsPerChannel = 32) →
      ¬(asbd.isSignedInt = true ∧ asbd.bitsPerChannel = 16) →
      computeRmsLevel sb = 0) ∧
    (∀ asbd, sb.formatDesc = some asbd → (rmsScan asbd sb.buffers).2 = 0 →
      computeRmsLevel sb = 0) := by
  have hbounds : 0 ≤ computeRmsLevel sb ∧ computeRmsLevel sb ≤ 1 := by
    unfold computeRmsLevel
    match hd : sb.formatDesc with
    | none => norm_num
    | some asbd =>
      by_cases habl : sb.ablOk = false
      · simp [habl]
      · simp only [habl, if_false]
        by_cases hc : (rmsScan asbd sb.buffers).2 = 0
        · simp [hc]
        · simp only [hc, if_false]
          constructor
          · exact le_min zero_le_one
              (mul_nonneg (Real.sqrt_nonneg _) (by norm_num))
          · exact min_le_left _ _
  refine ⟨hbounds.1, hbounds.2, ?_, ?_, ?_, ?_⟩
  · intro h
    simp [computeRmsLevel, h]
  · intro h
    unfold computeRmsLevel
    match hd : sb.formatDesc with
    | none => rfl
    | some asbd => simp [h]
  · intro asbd hd hf hi
    have hcount : (rmsScan asbd sb.buffers).2 = 0 := by
      rw [rmsScan_eq, interpretedSamples_unsupported asbd sb.buffers hf hi]
      rfl
    by_cases habl : sb.ablOk = false
    · simp [computeRmsLevel, hd, habl]
    · simp [computeRmsLevel, hd, habl, hcount]
  · intro asbd hd hcount
    by_cases habl : sb.ablOk = false
    · simp [computeRmsLevel, hd, habl]
    · simp [computeRmsLevel, hd, habl, hcount]

/-- Witness for C9 at a concrete sample buffer lacking a format description. -/
theorem computeRmsLevel_total_witness :
    0 ≤ computeRmsLevel { formatDesc := none, ablOk := true, buffers := [] } ∧
    computeRmsLevel { formatDesc := none, ablOk := true, buffers := [] } ≤ 1 ∧
    (SampleBuffer.formatDesc { formatDesc := none, ablOk := true, buffers := [] } = none →
      computeRmsLevel { formatDesc := none, ablOk := true, buffers := [] } = 0) ∧
    (SampleBuffer.ablOk { formatDesc := none, ablOk := true, buffers := [] } = false →
      computeRmsLevel { formatDesc := none, ablOk := true, buffers := [] } = 0) ∧
    (∀ asbd, SampleBuffer.formatDesc { formatDesc := none, ablOk := true, buffers := [] } = some asbd →
      ¬(asbd.isFloat = true ∧ asbd.bitsPerChannel = 32) →
      ¬(asbd.isSignedInt = true ∧ asbd.bitsPerChannel = 16) →
      computeRmsLevel { formatDesc := none, ablOk := true, buffers := [] } = 0) ∧
    (∀ asbd, SampleBuffer.formatDesc { formatDesc := none, ablOk := true, buffers := [] } = some asbd →
      (rmsScan asbd (SampleBuffer.buffers { formatDesc := none, ablOk := true, buffers := [] })).2 = 0 →
      computeRmsLevel { formatDesc := none, ablOk := true, buffers := [] } = 0) :=
  computeRmsLevel_total { formatDesc := none, ablOk := true, buffers := [] }

/-! ## Native capture adapter: state machine

The mutable state of `SystemAudioRecorder` and its event handlers, embedded
as explicit state passing. Times are `ℚ` seconds on the `Date` timeline;
the Swift constants `0.20` and `2.5` become `1/5` and `5/2`. External
nondeterminism (writer construction outcome, `isReadyForMoreMediaData`,
`append` success, file size read back from disk) is part of the event. -/

/-- A telemetry line written to stderr by the adapter. -/
inductive TelemetryLine where
  | noSampleError
  | writerInitError
  | appendError
  | totalSize (bytes : Nat)
  | outTimeUs (micros : ℚ)
  | levelLine (level : ℝ)

/-- The mutable fields of `SystemAudioRecorder`. The writer and its input
are created together, so one flag stands for `writer != nil`;
`writerFinishedMarked` / `writerFinishedWriting` record `markAsFinished()`
and the completion of `finishWriting`. -/
structure RecorderState where
  writerInitialized : Bool
  writerFinishedMarked : Bool
  writerFinishedWriting : Bool
  stopRequested : Bool
  stdinHandlerActive : Bool
  startedAt : ℚ
  lastTelemetry : ℚ
  smoothedLevel : ℝ
  hasReceivedAudioSample : Bool
  emittedNoSampleError : Bool

/-- `Date.distantPast`, the initial value of `lastTelemetry`, modelled as
seconds before the reference date. -/
def distantPast : ℚ := -62135769600

/-- The state right after `run()` sets `startedAt = Date()` and starts the
capture. -/
def initState (t0 : ℚ) : RecorderState :=
  { writerInitialized := false, writerFinishedMarked := false,
    writerFinishedWriting := false, stopRequested := false,
    stdinHandlerActive := true, startedAt := t0, lastTelemetry := distantPast,
    smoothedLevel := 0, hasReceivedAudioSample := false,
    emittedNoSampleError := false }

/-- `requestStop()`: latched — a second call returns immediately; the first
call clears the stdin readability handler and resumes the continuation. -/
def requestStop (s : RecorderState) : RecorderState :=
  if s.stopRequested = true then s
  else { s with stopRequested := true, stdinHandlerActive := false }

/-- `emitTelemetry(force:)` at wall-clock `now` with the current on-disk
`fileSize`: drop the emission if non-forced and less than 0.2 s since the
last one; otherwise stamp `lastTelemetry`, emit the (latched) no-sample
error when no sample has arrived more than 2.5 s after start, then emit the
`total_size` / `out_time_us` / `level` lines. -/
def emitTelemetry (force : Bool) (now : ℚ) (fileSize : Nat) (s : RecorderState) :
    RecorderState × List TelemetryLine :=
  if force = false ∧ now - s.lastTelemetry < 1/5 then (s, [])
  else
    let s1 := { s with lastTelemetry := now }
    if s1.hasReceivedAudioSample = false ∧ s1.emittedNoSampleError = false ∧
        now - s1.startedAt > 5/2 then
      ({ s1 with emittedNoSampleError := true },
        [TelemetryLine.noSampleError, TelemetryLine.totalSize fileSize,
         TelemetryLine.outTimeUs ((now - s1.startedAt) * 1000000),
         TelemetryLine.levelLine s1.smoothedLevel])
    else
      (s1, [TelemetryLine.totalSize fileSize,
        TelemetryLine.outTimeUs ((now - s1.startedAt) * 1000000),
        TelemetryLine.levelLine s1.smoothedLevel])

/-- One `stream(_:didOutputSampleBuffer:of:)` delivery together with the
environment's responses: the output type and validity checks, the sample
buffer, whether `AVAssetWriter` construction and `startWriting` would
succeed, `isReadyForMoreMediaData`, the `append` result, the wall clock and
the file size read for telemetry. -/
structure SampleEvent where
  outputIsAudio : Bool
  isValid : Bool
  buffer : SampleBuffer
  initSucceeds : Bool
  readyForMore : Bool
  appendOk : Bool
  now : ℚ
  fileSize : Nat

/-- The tail of the sample handler once a writer exists: append when the
input is ready (failure emits `sck_error` and requests stop), then update
the smoothed level and emit throttled telemetry. -/
noncomputable def handleAppendAndLevel (ev : SampleEvent) (s1 : RecorderState) :
    RecorderState × List TelemetryLine :=
  if ev.readyForMore = true ∧ ev.appendOk = false then
    (requestStop s1, [TelemetryLine.appendError])
  else
    emitTelemetry false ev.now ev.fileSize
      { s1 with smoothedLevel :=
          smoothUpdate s1.smoothedLevel (computeRmsLevel ev.buffer) }

/-- The sample handler past the validity guards: lazily set up the writer on
first need — a setup failure emits `sck_error` and requests stop — then
continue with append and level. -/
noncomputable def handleValidSample (ev : SampleEvent) (s0 : RecorderState) :
    RecorderState × List TelemetryLine :=
  if s0.writerInitialized = false ∧ ev.initSucceeds = false then
    (requestStop s0, [TelemetryLine.writerInitError])
  else
    handleAppendAndLevel ev
      (if s0.writerInitialized = false then
        { s0 with writerInitialized := true } else s0)

/-- The sample-handler body: bail out on non-audio or invalid buffers, mark
the sample as received, then set up the writer if needed and process the
sample. -/
noncomputable def handleSample (ev : SampleEvent) (s : RecorderState) :
    RecorderState × List TelemetryLine :=
  if ev.outputIsAudio = false then (s, [])
  else if ev.isValid = false then (s, [])
  else handleValidSample ev { s with hasReceivedAudioSample := true }

/-- An event delivered to the running adapter: a sample-buffer callback or a
stop signal from stdin (a line containing `q`, or stdin closing). -/
inductive AdapterEvent where
  | sample (ev : SampleEvent)
  | stopSignal

/-- Dispatch one adapter event. -/
noncomputable def adapterStep (s : RecorderState) : AdapterEvent → RecorderState × List TelemetryLine
  | AdapterEvent.sample ev => handleSample ev s
  | AdapterEvent.stopSignal => (requestStop s, [])

/-- The deliveries between `startCapture` and the completion of
`stopCapture`: every queued event is processed in order. The sample handler
itself has no stop guard, so buffers already queued on the serial handler
queue when a stop is requested are still delivered; the trace simply ends
when `stopCapture` completes. -/
noncomputable def runAdapter (s : RecorderState) : List AdapterEvent → RecorderState × List TelemetryLine
  | [] => (s, [])
  | e :: rest =>
    let step := adapterStep s e
    let next := runAdapter step.1 rest
    (next.1, step.2 ++ next.2)

/-- `finalizeWriter()`: when a writer exists, mark its input finished and
wait for `finishWriting` to complete; without a writer do nothing. -/
def finalizeWriter (s : RecorderState) : RecorderState :=
  if s.writerInitialized = true then
    { s with writerFinishedMarked := true, writerFinishedWriting := true }
  else s

/-- The tail of `run()` after the stop request: finalize the writer, then
force a final telemetry emission. -/
def shutdownState (now : ℚ) (fileSize : Nat) (s : RecorderState) :
    RecorderState × List TelemetryLine :=
  emitTelemetry true now fileSize (finalizeWriter s)

/-- A complete adapter run: start at `t0`, process the delivered events,
then stop capture at `tEnd` and finalize. -/
noncomputable def runComplete (t0 : ℚ) (evs : List AdapterEvent) (tEnd : ℚ)
    (fsEnd : Nat) : RecorderState × List TelemetryLine :=
  let main := runAdapter (initState t0) evs
  let fin := shutdownState tEnd fsEnd main.1
  (fin.1, main.2 ++ fin.2)

lemma requestStop_fields (s : RecorderState) :
    (requestStop s).writerInitialized = s.writerInitialized ∧
    (requestStop s).writerFinishedMarked = s.writerFinishedMarked ∧
    (requestStop s).writerFinishedWriting = s.writerFinishedWriting ∧
    (requestStop s).hasReceivedAudioSample = s.hasReceivedAudioSample ∧
    (requestStop s).emittedNoSampleError = s.emittedNoSampleError ∧
    (requestStop s).startedAt = s.startedAt ∧
    (requestStop s).lastTelemetry = s.lastTelemetry := by
  unfold requestStop
  split <;> simp

lemma requestStop_stopRequested (s : RecorderState) :
    (requestStop s).stopRequested = true := by
  unfold requestStop
  split
  · assumption
  · rfl

lemma emitTelemetry_fields (force : Bool) (now : ℚ) (fs : Nat) (s : RecorderState) :
    (emitTelemetry force now fs s).1.writerInitialized = s.writerInitialized ∧
    (emitTelemetry force now fs s).1.writerFinishedMarked = s.writerFinishedMarked ∧
    (emitTelemetry force now fs s).1.writerFinishedWriting = s.writerFinishedWriting ∧
    (emitTelemetry force now fs s).1.stopRequested = s.stopRequested ∧
    (emitTelemetry force now fs s).1.hasReceivedAudioSample = s.hasReceivedAudioSample ∧
    (emitTelemetry force now fs s).1.startedAt = s.startedAt ∧
    (emitTelemetry force now fs s).1.smoothedLevel = s.smoothedLevel := by
  unfold emitTelemetry
  split
  · simp
  · dsimp only
    split <;> simp

lemma finalizeWriter_fields (s : RecorderState) :
    (finalizeWriter s).hasReceivedAudioSample = s.hasReceivedAudioSample ∧
    (finalizeWriter s).emittedNoSampleError = s.emittedNoSampleError ∧
    (finalizeWriter s).startedAt = s.startedAt ∧
    (finalizeWriter s).lastTelemetry = s.lastTelemetry ∧
    (finalizeWriter s).writerInitialized = s.writerInitialized := by
  unfold finalizeWriter
  split <;> simp

/-- Modelled from the spec: the Recording Session Controller's states
(the Rust controller is missing from the sources). -/
inductive SessionState where
  | idle
  | starting
  | recording
  | paused
  | stopping
  | finalized
  | failed
deriving DecidableEq, Repr

/-- Modelled from the spec: session `stop` — from `Recording`/`Paused` it
stops the adapters, awaits finalization and reaches `Finalized` (collapsed
into one step here because `stop` blocks until finalization); on an
already-stopping or finalized session it is a no-op rather than an error. -/
def sessionStop : SessionState → SessionState
  | SessionState.recording => SessionState.finalized
  | SessionState.paused => SessionState.finalized
  | st => st

/-- C8: stop is idempotent — a second `requestStop` on the adapter leaves
the state unchanged, and (spec-modelled) a second session-level `stop`
yields the same finalized state as one with no further effect. -/
theorem stop_idempotent (s : RecorderState) (st : SessionState) :
    requestStop (requestStop s) = requestStop s ∧
    (s.stopRequested = true → requestStop s = s) ∧
    sessionStop (sessionStop st) = sessionStop st ∧
    ((st = SessionState.stopping ∨ st = SessionState.finalized) →
      sessionStop st = st) := by
  refine ⟨?_, ?_, ?_, ?_⟩
  · by_cases h : s.stopRequested = true <;> simp [requestStop, h]
  · intro h
    simp [requestStop, h]
  · cases st <;> rfl
  · rintro (rfl | rfl) <;> rfl

/-- Witness for C8 at the freshly started adapter state and a finalized
session. -/
theorem stop_idempotent_witness :
    requestStop (requestStop (initState 0)) = requestStop (initState 0) ∧
    ((initState 0).stopRequested = true → requestStop (initState 0) = initState 0) ∧
    sessionStop (sessionStop SessionState.finalized) =
      sessionStop SessionState.finalized ∧
    ((SessionState.finalized = SessionState.stopping ∨
      SessionState.finalized = SessionState.finalized) →
      sessionStop SessionState.finalized = SessionState.finalized) :=
  stop_idempotent (initState 0) SessionState.finalized

lemma emitTelemetry_force_ne_nil (now : ℚ) (fs : Nat) (s : RecorderState) :
    (emitTelemetry true now fs s).2 ≠ [] := by
  unfold emitTelemetry
  split
  · rename_i h
    exact absurd h.1 (by simp)
  · dsimp only
    split <;> simp

/-- C7: after a stop request, the shutdown path of `run()` marks the writer
input finished and waits until the writer has finished writing (whenever a
writer exists), and the forced final telemetry — which is always actually
emitted — is computed only after that finalization. -/
theorem shutdown_graceful (s : RecorderState) (now : ℚ) (fs : Nat) :
    (s.writerInitialized = true →
      (shutdownState now fs s).1.writerFinishedMarked = true ∧
      (shutdownState now fs s).1.writerFinishedWriting = true) ∧
    (shutdownState now fs s).2 ≠ [] ∧
    (shutdownState now fs s).2 = (emitTelemetry true now fs (finalizeWriter s)).2 := by
  refine ⟨?_, ?_, rfl⟩
  · intro h
    have hfin : (finalizeWriter s).writerFinishedMarked = true ∧
        (finalizeWriter s).writerFinishedWriting = true := by
      simp [finalizeWriter, h]
    have hem := emitTelemetry_fields true now fs (finalizeWriter s)
    unfold shutdownState
    exact ⟨hem.2.1.trans hfin.1, hem.2.2.1.trans hfin.2⟩
  · exact emitTelemetry_force_ne_nil now fs (finalizeWriter s)

/-- Witness for C7 at a state with an open writer. -/
theorem shutdown_graceful_witness :
    ({ initState 0 with writerInitialized := true } : RecorderState).writerInitialized = true ∧
    (shutdownState 3 7 { initState 0 with writerInitialized := true }).1.writerFinishedMarked = true ∧
    (shutdownState 3 7 { initState 0 with writerInitialized := true }).1.writerFinishedWriting = true ∧
    (shutdownState 3 7 { initState 0 with writerInitialized := true }).2 ≠ [] := by
  have h := shutdown_graceful { initState 0 with writerInitialized := true } 3 7
  have h1 := h.1 rfl
  exact ⟨rfl, h1.1, h1.2, h.2.1⟩

lemma handleAppendAndLevel_writer (ev : SampleEvent) (s1 : RecorderState) :
    (handleAppendAndLevel ev s1).1.writerInitialized = s1.writerInitialized := by
  unfold handleAppendAndLevel
  split
  · exact (requestStop_fields _).1
  · exact (emitTelemetry_fields _ _ _ _).1

lemma handleSample_writer_mono (ev : SampleEvent) (s : RecorderState)
    (h : s.writerInitialized = true) :
    (handleSample ev s).1.writerInitialized = true := by
  unfold handleSample
  split
  · exact h
  · split
    · exact h
    · unfold handleValidSample
      rw [if_neg (by simp [h])]
      rw [handleAppendAndLevel_writer, if_neg (by simp [h])]
      exact h

lemma adapterStep_writer_mono (s : RecorderState) (e : AdapterEvent)
    (h : s.writerInitialized = true) :
    (adapterStep s e).1.writerInitialized = true := by
  cases e with
  | sample ev => exact handleSample_writer_mono ev s h
  | stopSignal => exact ((requestStop_fields s).1).trans h

lemma handleSample_writer_init_success (ev : SampleEvent) (s : RecorderState)
    (haudio : ev.outputIsAudio = true) (hvalid : ev.isValid = true)
    (hsucc : ev.initSucceeds = true) :
    (handleSample ev s).1.writerInitialized = true := by
  unfold handleSample
  rw [if_neg (by simp [haudio]), if_neg (by simp [hvalid])]
  unfold handleValidSample
  rw [if_neg (by simp [hsucc])]
  rw [handleAppendAndLevel_writer]
  by_cases hw : s.writerInitialized = false
  · rw [if_pos (by simpa using hw)]
  · rw [if_neg (by simpa using hw)]
    revert hw
    cases s.writerInitialized <;> simp

/-- The number of writer-setup attempts performed while delivering the
events: an attempt happens exactly when a valid audio sample is handled
with no writer yet — the handler has no stop guard, so deliveries after a
failed setup attempt again. -/
noncomputable def runInitAttempts (s : RecorderState) : List AdapterEvent → Nat
  | [] => 0
  | e :: rest =>
    (match e with
      | AdapterEvent.sample ev =>
        if ev.outputIsAudio = true ∧ ev.isValid = true ∧
            s.writerInitialized = false then 1 else 0
      | AdapterEvent.stopSignal => 0) +
    runInitAttempts (adapterStep s e).1 rest

/-- The number of successful writer setups performed while delivering the
events. -/
noncomputable def runInitSuccesses (s : RecorderState) : List AdapterEvent → Nat
  | [] => 0
  | e :: rest =>
    (match e with
      | AdapterEvent.sample ev =>
        if ev.outputIsAudio = true ∧ ev.isValid = true ∧
            s.writerInitialized = false ∧ ev.initSucceeds = true then 1 else 0
      | AdapterEvent.stopSignal => 0) +
    runInitSuccesses (adapterStep s e).1 rest

lemma runInitAttempts_writer (evs : List AdapterEvent) :
    ∀ s : RecorderState, s.writerInitialized = true → runInitAttempts s evs = 0 := by
  induction evs with
  | nil => intro s _; rfl
  | cons e rest ih =>
    intro s h
    unfold runInitAttempts
    rw [ih (adapterStep s e).1 (adapterStep_writer_mono s e h)]
    cases e with
    | sample ev => simp [h]
    | stopSignal => simp

lemma runInitSuccesses_writer (evs : List AdapterEvent) :
    ∀ s : RecorderState, s.writerInitialized = true → runInitSuccesses s evs = 0 := by
  induction evs with
  | nil => intro s _; rfl
  | cons e rest ih =>
    intro s h
    unfold runInitSuccesses
    rw [ih (adapterStep s e).1 (adapterStep_writer_mono s e h)]
    cases e with
    | sample ev => simp [h]
    | stopSignal => simp

lemma runAdapter_no_valid (evs : List AdapterEvent) :
    ∀ s : RecorderState,
      (∀ sev, AdapterEvent.sample sev ∈ evs →
        sev.outputIsAudio = false ∨ sev.isValid = false) →
      (runAdapter s evs).2 = [] ∧
      (runAdapter s evs).1.writerInitialized = s.writerInitialized ∧
      (runAdapter s evs).1.hasReceivedAudioSample = s.hasReceivedAudioSample ∧
      (runAdapter s evs).1.emittedNoSampleError = s.emittedNoSampleError ∧
      (runAdapter s evs).1.startedAt = s.startedAt ∧
      (runAdapter s evs).1.lastTelemetry = s.lastTelemetry := by
  induction evs with
  | nil => intro s _; exact ⟨rfl, rfl, rfl, rfl, rfl, rfl⟩
  | cons e rest ih =>
    intro s hno
    unfold runAdapter
    have hstep : (adapterStep s e).2 = [] ∧
        (adapterStep s e).1.writerInitialized = s.writerInitialized ∧
        (adapterStep s e).1.hasReceivedAudioSample = s.hasReceivedAudioSample ∧
        (adapterStep s e).1.emittedNoSampleError = s.emittedNoSampleError ∧
        (adapterStep s e).1.startedAt = s.startedAt ∧
        (adapterStep s e).1.lastTelemetry = s.lastTelemetry := by
      cases e with
      | sample ev =>
        have hcase := hno ev (List.mem_cons_self _ _)
        have hid : adapterStep s (AdapterEvent.sample ev) = (s, []) := by
          show handleSample ev s = (s, [])
          unfold handleSample
          rcases hcase with hc | hc
          · rw [if_pos hc]
          · by_cases h1 : ev.outputIsAudio = false
            · rw [if_pos h1]
            · rw [if_neg h1, if_pos hc]
        rw [hid]
        exact ⟨rfl, rfl, rfl, rfl, rfl, rfl⟩
      | stopSignal =>
        have hrs := requestStop_fields s
        exact ⟨rfl, hrs.1, hrs.2.2.2.1, hrs.2.2.2.2.1, hrs.2.2.2.2.2.1,
          hrs.2.2.2.2.2.2⟩
    have hrest := ih (adapterStep s e).1
      (fun sev hm => hno sev (List.mem_cons_of_mem _ hm))
    refine ⟨?_, ?_, ?_, ?_, ?_, ?_⟩
    · dsimp only
      rw [hstep.1, hrest.1]
      rfl
    · exact hrest.2.1.trans hstep.2.1
    · exact hrest.2.2.1.trans hstep.2.2.1
    · exact hrest.2.2.2.1.trans hstep.2.2.2.1
    · exact hrest.2.2.2.2.1.trans hstep.2.2.2.2.1
    · exact hrest.2.2.2.2.2.trans hstep.2.2.2.2.2

lemma runInitSuccesses_le_one (evs : List AdapterEvent) :
    ∀ s : RecorderState, runInitSuccesses s evs ≤ 1 := by
  induction evs with
  | nil => intro s; exact Nat.zero_le 1
  | cons e rest ih =>
    intro s
    unfold runInitSuccesses
    cases e with
    | stopSignal => simpa using ih (adapterStep s AdapterEvent.stopSignal).1
    | sample ev =>
      show (if ev.outputIsAudio = true ∧ ev.isValid = true ∧
          s.writerInitialized = false ∧ ev.initSucceeds = true then 1 else 0) +
        runInitSuccesses (adapterStep s (AdapterEvent.sample ev)).1 rest ≤ 1
      by_cases hc : ev.outputIsAudio = true ∧ ev.isValid = true ∧
          s.writerInitialized = false ∧ ev.initSucceeds = true
      · rw [if_pos hc]
        have hrest : runInitSuccesses (adapterStep s (AdapterEvent.sample ev)).1
            rest = 0 :=
          runInitSuccesses_writer rest _
            (handleSample_writer_init_success ev s hc.1 hc.2.1 hc.2.2.2)
        rw [hrest]
      · rw [if_neg hc]
        simpa using ih (adapterStep s (AdapterEvent.sample ev)).1

/-- A sample event whose writer setup fails. -/
def evFail : SampleEvent :=
  { outputIsAudio := true, isValid := true, buffer := sbInt16,
    initSucceeds := false, readyForMore := true, appendOk := true,
    now := 1, fileSize := 0 }

/-- A sample event whose writer setup succeeds. -/
def evOk : SampleEvent :=
  { evFail with initSucceeds := true }

/-- Counterexample to C6 as stated: the sample handler has no stop guard,
so after a failed writer setup (which emits `sck_error` and requests stop)
a second valid sample already queued before `stopCapture` completes finds
`writer == nil` again and retries the setup — two setup attempts occur in
one run. -/
theorem writer_init_retry_counterexample :
    (handleSample evFail (initState 0)).1.stopRequested = true ∧
    (handleSample evFail (initState 0)).1.writerInitialized = false ∧
    runInitAttempts (initState 0)
      [AdapterEvent.sample evFail, AdapterEvent.sample evFail] = 2 := by
  have hstep : (handleSample evFail (initState 0)).1 =
      requestStop { initState 0 with hasReceivedAudioSample := true } := by
    unfold handleSample
    rw [if_neg (by simp [evFail]), if_neg (by simp [evFail])]
    unfold handleValidSample
    rw [if_pos ⟨rfl, rfl⟩]
  have hstop : (handleSample evFail (initState 0)).1.stopRequested = true := by
    rw [hstep]
    exact requestStop_stopRequested _
  have hw1 : (handleSample evFail (initState 0)).1.writerInitialized = false := by
    rw [hstep, (requestStop_fields _).1]
    rfl
  refine ⟨hstop, hw1, ?_⟩
  show (if evFail.outputIsAudio = true ∧ evFail.isValid = true ∧
      (initState 0).writerInitialized = false then 1 else 0) +
    runInitAttempts (adapterStep (initState 0) (AdapterEvent.sample evFail)).1
      [AdapterEvent.sample evFail] = 2
  rw [if_pos ⟨rfl, rfl, rfl⟩]
  have h2 : runInitAttempts (handleSample evFail (initState 0)).1
      [AdapterEvent.sample evFail] = 1 := by
    show (if evFail.outputIsAudio = true ∧ evFail.isValid = true ∧
        (handleSample evFail (initState 0)).1.writerInitialized = false
        then 1 else 0) + runInitAttempts _ [] = 1
    rw [if_pos ⟨rfl, rfl, hw1⟩]
    rfl
  have h2' : runInitAttempts (adapterStep (initState 0)
      (AdapterEvent.sample evFail)).1 [AdapterEvent.sample evFail] = 1 := h2
  rw [h2']

/-- C6 amended: the writer is opened only on the first valid audio sample
(a run that never sees a valid audio sample never creates a writer); the
`writer == nil` guard prevents any setup attempt once a writer exists, so at
most one setup attempt ever succeeds; and a failed setup emits the
structured `sck_error` line and requests stop rather than failing silently.
(After a failed setup, samples still queued before capture stops retry the
setup, so the attempt count itself can exceed one — see the
counterexample.) -/
theorem deferred_writer_setup (t0 : ℚ) (evs : List AdapterEvent)
    (s : RecorderState) (ev : SampleEvent) :
    ((∀ sev, AdapterEvent.sample sev ∈ evs →
        sev.outputIsAudio = false ∨ sev.isValid = false) →
      (runAdapter (initState t0) evs).1.writerInitialized = false) ∧
    runInitSuccesses s evs ≤ 1 ∧
    (s.writerInitialized = true → runInitAttempts s evs = 0) ∧
    (s.writerInitialized = false → ev.outputIsAudio = true →
      ev.isValid = true → ev.initSucceeds = false →
      (handleSample ev s).2 = [TelemetryLine.writerInitError] ∧
      (handleSample ev s).1.stopRequested = true) := by
  refine ⟨?_, runInitSuccesses_le_one evs s, runInitAttempts_writer evs s, ?_⟩
  · intro hno
    exact ((runAdapter_no_valid evs (initState t0) hno).2.1).trans rfl
  · intro hw haudio hvalid hfail
    constructor
    · unfold handleSample
      rw [if_neg (by simp [haudio]), if_neg (by simp [hvalid])]
      unfold handleValidSample
      rw [if_pos (by simp [hw, hfail])]
    · unfold handleSample
      rw [if_neg (by simp [haudio]), if_neg (by simp [hvalid])]
      unfold handleValidSample
      rw [if_pos (by simp [hw, hfail])]
      exact requestStop_stopRequested _

/-- Witness for the amended C6: deferral on an empty delivery list, the
successful-setup bound on a two-sample run, the no-attempt-once-initialized
guard, and the surfaced failure, all at concrete inputs. -/
theorem deferred_writer_setup_witness :
    (runAdapter (initState 0) []).1.writerInitialized = false ∧
    runInitSuccesses (initState 0)
      [AdapterEvent.sample evOk, AdapterEvent.sample evOk] ≤ 1 ∧
    runInitAttempts ({ initState 0 with writerInitialized := true } :
      RecorderState) [AdapterEvent.sample evOk] = 0 ∧
    (handleSample evFail (initState 0)).2 = [TelemetryLine.writerInitError] ∧
    (handleSample evFail (initState 0)).1.stopRequested = true := by
  have h4 := (deferred_writer_setup 0 [] (initState 0) evFail).2.2.2
    rfl rfl rfl rfl
  exact ⟨(deferred_writer_setup 0 [] (initState 0) evFail).1
      (fun _ hm => absurd hm (List.not_mem_nil _)),
    (deferred_writer_setup 0
      [AdapterEvent.sample evOk, AdapterEvent.sample evOk] (initState 0) evFail).2.1,
    (deferred_writer_setup 0 [AdapterEvent.sample evOk]
      ({ initState 0 with writerInitialized := true }) evFail).2.2.1 rfl,
    h4.1, h4.2⟩

/-- A sequence of `emitTelemetry` invocations applied in order; each call is
`(force, now, fileSize)`. -/
def runEmit (s : RecorderState) : List (Bool × ℚ × Nat) → RecorderState
  | [] => s
  | c :: rest => runEmit (emitTelemetry c.1 c.2.1 c.2.2 s).1 rest

lemma emitTelemetry_throttled_eq (force : Bool) (now : ℚ) (fs : Nat)
    (s : RecorderState) (hc : force = false ∧ now - s.lastTelemetry < 1/5) :
    emitTelemetry force now fs s = (s, []) := by
  unfold emitTelemetry
  rw [if_pos hc]

lemma emitTelemetry_pass_last (force : Bool) (now : ℚ) (fs : Nat)
    (s : RecorderState) (hc : ¬(force = false ∧ now - s.lastTelemetry < 1/5)) :
    (emitTelemetry force now fs s).1.lastTelemetry = now := by
  unfold emitTelemetry
  rw [if_neg hc]
  dsimp only
  split <;> rfl

lemma emitTelemetry_emits_iff (force : Bool) (now : ℚ) (fs : Nat)
    (s : RecorderState) :
    (emitTelemetry force now fs s).2 ≠ [] ↔
      ¬(force = false ∧ now - s.lastTelemetry < 1/5) := by
  by_cases hc : force = false ∧ now - s.lastTelemetry < 1/5
  · rw [emitTelemetry_throttled_eq force now fs s hc]
    constructor
    · intro h; exact absurd rfl h
    · intro h; exact absurd hc h
  · constructor
    · intro _; exact hc
    · intro _
      unfold emitTelemetry
      rw [if_neg hc]
      dsimp only
      split <;> simp

lemma emitTelemetry_last_or (force : Bool) (now : ℚ) (fs : Nat)
    (s : RecorderState) :
    (emitTelemetry force now fs s).1.lastTelemetry = s.lastTelemetry ∨
    (emitTelemetry force now fs s).1.lastTelemetry = now := by
  unfold emitTelemetry
  split
  · exact Or.inl rfl
  · dsimp only
    split
    · exact Or.inr rfl
    · exact Or.inr rfl

lemma runEmit_last_ge (mid : List (Bool × ℚ × Nat)) (ti : ℚ) :
    ∀ s : RecorderState, (∀ c ∈ mid, ti ≤ c.2.1) → ti ≤ s.lastTelemetry →
      ti ≤ (runEmit s mid).lastTelemetry := by
  induction mid with
  | nil => intro s _ h; exact h
  | cons c rest ih =>
    intro s hmid h
    show ti ≤ (runEmit (emitTelemetry c.1 c.2.1 c.2.2 s).1 rest).lastTelemetry
    apply ih _ (fun d hd => hmid d (List.mem_cons_of_mem _ hd))
    rcases emitTelemetry_last_or c.1 c.2.1 c.2.2 s with h1 | h1
    · rw [h1]; exact h
    · rw [h1]; exact hmid c (List.mem_cons_self _ _)

/-- C5: telemetry is throttled to one emission per 200 ms — if two
non-forced `emitTelemetry` calls at times `ti` and `tj` (with any other
calls in between, none earlier than `ti`) both actually emit, then
`tj ≥ ti + 0.2`; a forced call (the final emission on stop) bypasses the
throttle. -/
theorem telemetry_throttle (s0 : RecorderState) (pre mid : List (Bool × ℚ × Nat))
    (ti tj : ℚ) (fsi fsj : Nat)
    (hmid : ∀ c ∈ mid, ti ≤ c.2.1)
    (hi : (emitTelemetry false ti fsi (runEmit s0 pre)).2 ≠ [])
    (hj : (emitTelemetry false tj fsj
      (runEmit (emitTelemetry false ti fsi (runEmit s0 pre)).1 mid)).2 ≠ []) :
    ti + 1/5 ≤ tj := by
  have hlast1 : (emitTelemetry false ti fsi (runEmit s0 pre)).1.lastTelemetry = ti :=
    emitTelemetry_pass_last _ _ _ _ ((emitTelemetry_emits_iff _ _ _ _).mp hi)
  have hge : ti ≤ (runEmit (emitTelemetry false ti fsi (runEmit s0 pre)).1
      mid).lastTelemetry :=
    runEmit_last_ge mid ti _ hmid (le_of_eq hlast1.symm)
  have hcond := (emitTelemetry_emits_iff _ _ _ _).mp hj
  have h5 : ¬(tj - (runEmit (emitTelemetry false ti fsi (runEmit s0 pre)).1
      mid).lastTelemetry < 1/5) := fun hlt => hcond ⟨rfl, hlt⟩
  have hle := not_lt.mp h5
  linarith

/-- Witness for C5: two non-forced emissions exactly 0.2 s apart, from a
fresh adapter state. -/
theorem telemetry_throttle_witness :
    (∀ c ∈ ([] : List (Bool × ℚ × Nat)), (10 : ℚ) ≤ c.2.1) ∧
    (emitTelemetry false 10 0 (runEmit (initState 0) [])).2 ≠ [] ∧
    (emitTelemetry false (51/5) 0
      (runEmit (emitTelemetry false 10 0 (runEmit (initState 0) [])).1 [])).2 ≠ [] ∧
    (10 : ℚ) + 1/5 ≤ 51/5 := by
  have hmid : ∀ c ∈ ([] : List (Bool × ℚ × Nat)), (10 : ℚ) ≤ c.2.1 :=
    fun c hc => absurd hc (List.not_mem_nil c)
  have hpass1 : ¬((false = false) ∧
      (10 : ℚ) - (runEmit (initState 0) []).lastTelemetry < 1/5) := by
    rintro ⟨-, hlt⟩
    have : (runEmit (initState 0) []).lastTelemetry = distantPast := rfl
    rw [this] at hlt
    norm_num [distantPast] at hlt
  have h1 : (emitTelemetry false 10 0 (runEmit (initState 0) [])).2 ≠ [] :=
    (emitTelemetry_emits_iff _ _ _ _).mpr hpass1
  have hlast : (emitTelemetry false 10 0 (runEmit (initState 0) [])).1.lastTelemetry =
      10 := emitTelemetry_pass_last _ _ _ _ hpass1
  have h2 : (emitTelemetry false (51/5) 0
      (runEmit (emitTelemetry false 10 0 (runEmit (initState 0) [])).1 [])).2 ≠ [] := by
    apply (emitTelemetry_emits_iff _ _ _ _).mpr
    rintro ⟨-, hlt⟩
    have : (runEmit (emitTelemetry false 10 0 (runEmit (initState 0) [])).1
        []).lastTelemetry = 10 := hlast
    rw [this] at hlt
    norm_num at hlt
  exact ⟨hmid, h1, h2,
    telemetry_throttle (initState 0) [] [] 10 (51/5) 0 0 hmid h1 h2⟩

/-- Recognizer for the latched no-sample `sck_error` line. -/
def isNoSampleError : TelemetryLine → Bool
  | TelemetryLine.noSampleError => true
  | _ => false

/-- How many no-sample error lines a transcript of telemetry contains. -/
def errCount (lines : List TelemetryLine) : Nat :=
  (lines.filter isNoSampleError).length

/-- 1 when the no-sample error latch is set, 0 otherwise. -/
def latchInd (s : RecorderState) : Nat :=
  if s.emittedNoSampleError = true then 1 else 0

lemma errCount_append (a b : List TelemetryLine) :
    errCount (a ++ b) = errCount a + errCount b := by
  simp [errCount, List.filter_append]

lemma latchInd_le_one (s : RecorderState) : latchInd s ≤ 1 := by
  unfold latchInd
  split <;> simp

lemma requestStop_latch (s : RecorderState) :
    latchInd (requestStop s) = latchInd s := by
  unfold latchInd
  rw [(requestStop_fields s).2.2.2.2.1]

lemma emitTelemetry_latch (force : Bool) (now : ℚ) (fs : Nat) (s : RecorderState) :
    errCount (emitTelemetry force now fs s).2 + latchInd s =
      latchInd (emitTelemetry force now fs s).1 := by
  unfold emitTelemetry
  split
  · simp [errCount]
  · dsimp only
    split
    · rename_i h
      simp [errCount, isNoSampleError, latchInd, h.2.1]
    · simp [errCount, isNoSampleError, latchInd]

lemma handleAppendAndLevel_latch (ev : SampleEvent) (s1 : RecorderState) :
    errCount (handleAppendAndLevel ev s1).2 + latchInd s1 =
      latchInd (handleAppendAndLevel ev s1).1 := by
  unfold handleAppendAndLevel
  split
  · rw [requestStop_latch]
    simp [errCount, isNoSampleError]
  · have h0 : ∀ x : ℝ, latchInd { s1 with smoothedLevel := x } = latchInd s1 :=
      fun x => rfl
    rw [← h0 (smoothUpdate s1.smoothedLevel (computeRmsLevel ev.buffer))]
    exact emitTelemetry_latch false ev.now ev.fileSize _

lemma handleValidSample_latch (ev : SampleEvent) (s0 : RecorderState) :
    errCount (handleValidSample ev s0).2 + latchInd s0 =
      latchInd (handleValidSample ev s0).1 := by
  unfold handleValidSample
  split
  · rw [requestStop_latch]
    simp [errCount, isNoSampleError]
  · have h0 : latchInd (if s0.writerInitialized = false then
        { s0 with writerInitialized := true } else s0) = latchInd s0 := by
      split <;> rfl
    rw [← h0]
    exact handleAppendAndLevel_latch ev _

lemma handleSample_latch (ev : SampleEvent) (s : RecorderState) :
    errCount (handleSample ev s).2 + latchInd s =
      latchInd (handleSample ev s).1 := by
  unfold handleSample
  split
  · simp [errCount]
  · split
    · simp [errCount]
    · have h0 : latchInd ({ s with hasReceivedAudioSample := true } :
          RecorderState) = latchInd s := rfl
      rw [← h0]
      exact handleValidSample_latch ev _

lemma adapterStep_latch (s : RecorderState) (e : AdapterEvent) :
    errCount (adapterStep s e).2 + latchInd s = latchInd (adapterStep s e).1 := by
  cases e with
  | sample ev => exact handleSample_latch ev s
  | stopSignal =>
    show errCount [] + latchInd s = latchInd (requestStop s)
    rw [requestStop_latch]
    simp [errCount]

lemma runAdapter_latch (evs : List AdapterEvent) :
    ∀ s : RecorderState,
      errCount (runAdapter s evs).2 + latchInd s = latchInd (runAdapter s evs).1 := by
  induction evs with
  | nil => intro s; simp [runAdapter, errCount]
  | cons e rest ih =>
    intro s
    unfold runAdapter
    dsimp only
    rw [errCount_append]
    have h1 := adapterStep_latch s e
    have h2 := ih (adapterStep s e).1
    omega

lemma runComplete_latch (t0 : ℚ) (evs : List AdapterEvent) (tEnd : ℚ) (fs : Nat) :
    errCount (runComplete t0 evs tEnd fs).2 + latchInd (initState t0) =
      latchInd (runComplete t0 evs tEnd fs).1 := by
  unfold runComplete shutdownState
  dsimp only
  rw [errCount_append]
  have h1 := runAdapter_latch evs (initState t0)
  have hfin : latchInd (finalizeWriter (runAdapter (initState t0) evs).1) =
      latchInd (runAdapter (initState t0) evs).1 := by
    unfold latchInd
    rw [(finalizeWriter_fields _).2.1]
  have h2 := emitTelemetry_latch true tEnd fs
    (finalizeWriter (runAdapter (initState t0) evs).1)
  rw [hfin] at h2
  omega

lemma emitTelemetry_no_err_of_received (force : Bool) (now : ℚ) (fs : Nat)
    (s : RecorderState) (h : s.hasReceivedAudioSample = true) :
    errCount (emitTelemetry force now fs s).2 = 0 := by
  unfold emitTelemetry
  split
  · simp [errCount]
  · dsimp only
    rw [if_neg (by simp [h])]
    simp [errCount, isNoSampleError]

lemma emitTelemetry_force_err (now : ℚ) (fs : Nat) (s : RecorderState)
    (h1 : s.hasReceivedAudioSample = false) (h2 : s.emittedNoSampleError = false)
    (h3 : now - s.startedAt > 5/2) :
    errCount (emitTelemetry true now fs s).2 = 1 := by
  unfold emitTelemetry
  rw [if_neg (by simp)]
  dsimp only
  rw [if_pos (by exact ⟨by simpa using h1, by simpa using h2, by simpa using h3⟩)]
  simp [errCount, isNoSampleError]

lemma handleAppendAndLevel_errCount (ev : SampleEvent) (s1 : RecorderState)
    (h : s1.hasReceivedAudioSample = true) :
    errCount (handleAppendAndLevel ev s1).2 = 0 := by
  unfold handleAppendAndLevel
  split
  · simp [errCount, isNoSampleError]
  · exact emitTelemetry_no_err_of_received false ev.now ev.fileSize _ (by simpa using h)

lemma handleSample_errCount (ev : SampleEvent) (s : RecorderState) :
    errCount (handleSample ev s).2 = 0 := by
  unfold handleSample
  split
  · simp [errCount]
  · split
    · simp [errCount]
    · unfold handleValidSample
      split
      · simp [errCount, isNoSampleError]
      · apply handleAppendAndLevel_errCount
        split <;> rfl

lemma handleAppendAndLevel_received (ev : SampleEvent) (s1 : RecorderState)
    (h : s1.hasReceivedAudioSample = true) :
    (handleAppendAndLevel ev s1).1.hasReceivedAudioSample = true := by
  unfold handleAppendAndLevel
  split
  · exact ((requestStop_fields _).2.2.2.1).trans h
  · exact ((emitTelemetry_fields _ _ _ _).2.2.2.2.1).trans (by simpa using h)

lemma handleSample_received (ev : SampleEvent) (s : RecorderState)
    (haudio : ev.outputIsAudio = true) (hvalid : ev.isValid = true) :
    (handleSample ev s).1.hasReceivedAudioSample = true := by
  unfold handleSample
  rw [if_neg (by simp [haudio]), if_neg (by simp [hvalid])]
  unfold handleValidSample
  split
  · exact ((requestStop_fields _).2.2.2.1).trans rfl
  · apply handleAppendAndLevel_received
    split <;> rfl

/-- Modelled from the spec: the Telemetry Aggregator in the Rust backend
(missing from the sources) treats every `sck_error` line as fatal and
escalates it to a session-level stop. -/
def sessionEscalates : TelemetryLine → Bool
  | TelemetryLine.noSampleError => true
  | TelemetryLine.writerInitError => true
  | TelemetryLine.appendError => true
  | _ => false

/-- A valid audio sample event arriving only at t = 3 s, after the 2.5 s
no-signal deadline. -/
def evLate : SampleEvent :=
  { outputIsAudio := true, isValid := true, buffer := sbInt16,
    initSucceeds := true, readyForMore := false, appendOk := true,
    now := 3, fileSize := 0 }

/-- Counterexample to C4 as stated: in a run started at t = 0 whose only
valid audio sample arrives at t = 3 (so no valid sample was observed within
2.5 s of start) and which stops at t = 10, the adapter emits zero no-sample
error lines — not exactly one — because the check runs only inside telemetry
emissions, which happen after `hasReceivedAudioSample` is already set. -/
theorem noSample_error_counterexample :
    (3 : ℚ) - 0 > 5/2 ∧
    evLate.outputIsAudio = true ∧ evLate.isValid = true ∧ evLate.now = 3 ∧
    errCount (runComplete 0 [AdapterEvent.sample evLate] 10 0).2 = 0 := by
  refine ⟨by norm_num, rfl, rfl, rfl, ?_⟩
  unfold runComplete shutdownState
  dsimp only
  rw [errCount_append]
  have hmainstate : (runAdapter (initState 0) [AdapterEvent.sample evLate]).1 =
      (handleSample evLate (initState 0)).1 := by
    unfold runAdapter
    rfl
  have hmainout : errCount (runAdapter (initState 0)
      [AdapterEvent.sample evLate]).2 = 0 := by
    unfold runAdapter
    dsimp only
    rw [errCount_append]
    have hs : errCount (adapterStep (initState 0) (AdapterEvent.sample evLate)).2 = 0 :=
      handleSample_errCount evLate (initState 0)
    rw [hs]
    simp [runAdapter, errCount]
  rw [hmainout, hmainstate]
  have hrec : (handleSample evLate (initState 0)).1.hasReceivedAudioSample = true :=
    handleSample_received evLate (initState 0) rfl rfl
  have hfinrec : (finalizeWriter
      (handleSample evLate (initState 0)).1).hasReceivedAudioSample = true :=
    ((finalizeWriter_fields _).1).trans hrec
  rw [emitTelemetry_no_err_of_received true 10 0 _ hfinrec]

/-- C4 amended: the no-sample error line is emitted at most once per run
(latched); in a run in which no valid audio sample ever arrives and whose
final forced emission happens more than 2.5 s after start, exactly one such
line is emitted; and (spec-modelled) the session level treats it as fatal.
The original claim's trigger — "no valid sample within 2.5 s of start" — is
weakened to "still no valid sample when an emission occurs after 2.5 s",
because the check only runs inside telemetry emissions. -/
theorem noSample_error_latched (t0 : ℚ) (evs : List AdapterEvent) (tEnd : ℚ)
    (fsEnd : Nat) :
    errCount (runComplete t0 evs tEnd fsEnd).2 ≤ 1 ∧
    ((∀ sev, AdapterEvent.sample sev ∈ evs →
        sev.outputIsAudio = false ∨ sev.isValid = false) →
      tEnd - t0 > 5/2 →
      errCount (runComplete t0 evs tEnd fsEnd).2 = 1) ∧
    sessionEscalates TelemetryLine.noSampleError = true := by
  refine ⟨?_, ?_, rfl⟩
  · have hlatch := runComplete_latch t0 evs tEnd fsEnd
    have hinit : latchInd (initState t0) = 0 := rfl
    have hle := latchInd_le_one (runComplete t0 evs tEnd fsEnd).1
    omega
  · intro hno hgt
    have hmain := runAdapter_no_valid evs (initState t0) hno
    unfold runComplete shutdownState
    dsimp only
    rw [errCount_append, hmain.1]
    have hfin := finalizeWriter_fields (runAdapter (initState t0) evs).1
    have h1 : (finalizeWriter
        (runAdapter (initState t0) evs).1).hasReceivedAudioSample = false :=
      (hfin.1).trans (hmain.2.2.1.trans rfl)
    have h2 : (finalizeWriter
        (runAdapter (initState t0) evs).1).emittedNoSampleError = false :=
      (hfin.2.1).trans (hmain.2.2.2.1.trans rfl)
    have h3 : tEnd - (finalizeWriter
        (runAdapter (initState t0) evs).1).startedAt > 5/2 := by
      rw [(hfin.2.2.1).trans (hmain.2.2.2.2.1.trans rfl)]
      exact hgt
    rw [emitTelemetry_force_err tEnd fsEnd _ h1 h2 h3]
    simp [errCount]

/-- Witness for the amended C4 at a concrete empty run stopping at t = 3. -/
theorem noSample_error_latched_witness :
    errCount (runComplete 0 [] 3 0).2 ≤ 1 ∧
    ((∀ sev, AdapterEvent.sample sev ∈ ([] : List AdapterEvent) →
        sev.outputIsAudio = false ∨ sev.isValid = false) →
      (3 : ℚ) - 0 > 5/2 →
      errCount (runComplete 0 [] 3 0).2 = 1) ∧
    sessionEscalates TelemetryLine.noSampleError = true :=
  noSample_error_latched 0 [] 3 0

end BeyondCall
